import Mathlib

/-!
Verification of the intraday Strategy Selection Engine
(`frontend/src/components/StrategySelector.tsx`).

Numbers are embedded as exact rationals (`ℚ`): the source's float64
arithmetic here consists of field operations and comparisons against
literals, all of which we model exactly.  The two transcendental
primitives `Math.log` and `Math.sqrt`, which the source uses only to
produce the derived `rv_30m_volpts` field, are taken as parameters
(`mlog`, `msqrt`) of the signal computation.  The one place where a
float64 NaN is reachable and observable is the front/back IV ratio
(`0 / 0` when the ATM call IV is `0`); that field is embedded as
`Option ℚ` with `none` playing the role of NaN, and the scorer's
comparisons against it are false on `none`, exactly as IEEE comparisons
with NaN are false in JavaScript.
-/

/-- One leg (call or put side) of an option-chain row: last traded price,
bid, ask, traded volume, open interest, implied volatility, delta. -/
structure OptionLeg where
  ltp : ℚ
  bid : ℚ
  ask : ℚ
  volume : ℕ
  oi : ℕ
  iv : ℚ
  delta : ℚ
deriving DecidableEq, Repr

/-- One row of the option-chain snapshot: a strike with its call and put legs. -/
structure OptionData where
  strike : ℚ
  call : OptionLeg
  put : OptionLeg
deriving DecidableEq, Repr

/-- One sample of the market feed: spot price, ISO timestamp, minute volume. -/
structure MarketData where
  spot : ℚ
  timestamp : String
  volume : ℕ
deriving DecidableEq, Repr

/-- The derived market-structure signals, shaped exactly as the source's
`Signals` interface.  `FB_ratio` is `Option ℚ`: `none` models the float64
NaN produced by the `0 / 0` division when the ATM call IV is zero. -/
structure Signals where
  OR_width_pct : ℚ
  EM_pct : ℚ
  FB_ratio : Option ℚ
  RR25 : ℚ
  rv_30m_volpts : ℚ
  pin_strike : ℚ
  pin_dist_pct : ℚ
  liquidity_ok : Bool
  ORH : ℚ
  ORL : ℚ
  spot_open : ℚ
  current_spot : ℚ
deriving DecidableEq, Repr

/-- The four archetype scores: A = Expiry Iron Fly, B = ORB + ITM Long,
C = ATM Double-Calendar, D = Delta-Hedged Short Straddle. -/
structure StrategyScores where
  A : ℤ
  B : ℤ
  C : ℤ
  D : ℤ
deriving DecidableEq, Repr

/-- Buy/sell side of a trade leg. -/
inductive LegType where
  | BUY
  | SELL
deriving DecidableEq, Repr

/-- Call/put kind of a trade leg. -/
inductive OptType where
  | CALL
  | PUT
deriving DecidableEq, Repr

/-- Breakout direction. -/
inductive Dir where
  | up
  | down
deriving DecidableEq, Repr

/-- Result of the breakout check; `direction` is `none` when there is no
breakout (the source's `null`). -/
structure Breakout where
  hasBreakout : Bool
  direction : Option Dir
deriving DecidableEq, Repr

/-- One leg of a trade recommendation.  `price` is optional in the source
and never populated by the constructor. -/
structure TradeLeg where
  type : LegType
  opt : OptType
  strike : ℚ
  dte : String
  price : Option ℚ
deriving DecidableEq, Repr

/-- Exit rules of a recommendation (free-text in the source). -/
structure ExitRules where
  tp : String
  sl : String
  notes : String
deriving DecidableEq, Repr

/-- Risk sizing of a recommendation. -/
structure RiskInfo where
  max_loss_R : ℚ
deriving DecidableEq, Repr

/-- A fully-parameterized trade recommendation. -/
structure TradeRecommendation where
  strategy : String
  legs : List TradeLeg
  exits : ExitRules
  risk : RiskInfo
deriving DecidableEq, Repr

/-- The four strategy archetypes, in the source's evaluation order. -/
inductive Arche where
  | A
  | B
  | C
  | D
deriving DecidableEq, Repr

/-- JavaScript `x || d` for an optional number: `d` when `x` is
`undefined` (`none`) or `0` (falsy), otherwise the value of `x`. -/
def jsOr (x : Option ℚ) (d : ℚ) : ℚ :=
  match x with
  | some v => if v = 0 then d else v
  | none => d

/-- Float64 division as observable in this program: `0 / 0` is NaN
(`none`); a nonzero numerator with zero denominator would be an infinity,
which is unreachable here (the only use divides `frontIV` by
`frontIV * 0.85`), so it is mapped to the rational division default. -/
def fdiv (a b : ℚ) : Option ℚ :=
  if a = 0 ∧ b = 0 then none else some (a / b)

/-- `x >= r` on a possibly-NaN float: false on NaN, as in IEEE/JS. -/
def nGe (x : Option ℚ) (r : ℚ) : Bool :=
  match x with
  | some v => decide (r ≤ v)
  | none => false

/-- `x <= r` on a possibly-NaN float: false on NaN, as in IEEE/JS. -/
def nLe (x : Option ℚ) (r : ℚ) : Bool :=
  match x with
  | some v => decide (v ≤ r)
  | none => false

/-- `a < x` on a possibly-NaN float `x`: false on NaN, as in IEEE/JS. -/
def ltN (a : ℚ) (x : Option ℚ) : Bool :=
  match x with
  | some v => decide (a < v)
  | none => false

/-- JavaScript `Math.round`: round to the nearest integer, ties toward
positive infinity. -/
def jsRound (q : ℚ) : ℤ := ⌊q + 1 / 2⌋

/-- `Math.max` over a spread list of spots (the guarding branch makes the
empty case unreachable; it is mapped to `0`). -/
def spotsMax : List ℚ → ℚ
  | [] => 0
  | x :: xs => xs.foldl max x

/-- `Math.min` over a spread list of spots. -/
def spotsMin : List ℚ → ℚ
  | [] => 0
  | x :: xs => xs.foldl min x

/-- `reduce((sum, d) => sum + d.volume, 0)` over market samples. -/
def sumVolumes (l : List MarketData) : ℕ :=
  l.foldl (fun s d => s + d.volume) 0

/-- The delta field the delta-proximity search inspects: the call delta,
or the absolute value of the put delta. -/
def deltaOf (ty : OptType) (o : OptionData) : ℚ :=
  match ty with
  | OptType.CALL => o.call.delta
  | OptType.PUT => |o.put.delta|

/-- The leg the delta-proximity search returns. -/
def legOf (ty : OptType) (o : OptionData) : OptionLeg :=
  match ty with
  | OptType.CALL => o.call
  | OptType.PUT => o.put

/-- The ±0.05 tolerance-band predicate of `findStrikeByDelta`. -/
def inBandDelta (targetDelta : ℚ) (ty : OptType) (o : OptionData) : Bool :=
  decide (|deltaOf ty o - targetDelta| < 0.05)

/-- `findStrikeByDelta`: `Array.prototype.find` over the chain with the
tolerance-band predicate, returning the matching side's leg paired with
its strike, or `none` when no row matches. -/
def findStrikeByDelta (optionChain : List OptionData) (targetDelta : ℚ)
    (ty : OptType) : Option (OptionLeg × ℚ) :=
  (optionChain.find? (inBandDelta targetDelta ty)).map
    (fun o => (legOf ty o, o.strike))

/-- `findATMStrike`: reduce over the chain keeping the strike closest to
spot; seeded with `optionChain[0]?.strike || spot`. -/
def findATMStrike (optionChain : List OptionData) (spot : ℚ) : ℚ :=
  optionChain.foldl
    (fun closest opt =>
      if |opt.strike - spot| < |closest - spot| then opt.strike else closest)
    (jsOr (optionChain.head?.map (fun o => o.strike)) spot)

/-- Combined open interest of a row. -/
def totalOI (o : OptionData) : ℕ := o.call.oi + o.put.oi

/-- The accumulator lookup of `findMaxOIStrike`: total OI of the first
row carrying the given strike, `0` when absent. -/
def lookupOI (optionChain : List OptionData) (k : ℚ) : ℕ :=
  match optionChain.find? (fun o => decide (o.strike = k)) with
  | some o => totalOI o
  | none => 0

/-- `findMaxOIStrike`: reduce over the chain keeping the strike of
maximal combined open interest (re-finding the accumulator's row on each
step, as the source does); seeded with `optionChain[0]?.strike || 0`. -/
def findMaxOIStrike (optionChain : List OptionData) : ℚ :=
  optionChain.foldl
    (fun maxStrike opt =>
      if lookupOI optionChain maxStrike < totalOI opt then opt.strike
      else maxStrike)
    (jsOr (optionChain.head?.map (fun o => o.strike)) 0)

/-- The log returns between consecutive samples, `mlog` standing for
`Math.log`. -/
def logReturns (mlog : ℚ → ℚ) (marketData : List MarketData) : List ℚ :=
  (marketData.zip marketData.tail).map (fun p => mlog (p.2.spot / p.1.spot))

/-- The ATM chain row: `optionChain.find(opt => opt.strike === atmStrike)`
with the ATM strike computed from spot. -/
def atmRow (optionChain : List OptionData) (spot : ℚ) : Option OptionData :=
  optionChain.find? (fun o => decide (o.strike = findATMStrike optionChain spot))

/-- The front IV the signal computation uses: `atmCall?.iv || 0`. -/
def frontIVof (optionChain : List OptionData) (spot : ℚ) : ℚ :=
  jsOr ((atmRow optionChain spot).map (fun r => r.call.iv)) 0

/-- `computeSignals`: the signal computation, returning `none`
("insufficient data") when there are fewer than 2 samples or the chain
snapshot is empty, and the fully-populated `Signals` record otherwise.
`mlog` and `msqrt` stand for `Math.log` and `Math.sqrt`. -/
def computeSignals (mlog msqrt : ℚ → ℚ) (marketData : List MarketData)
    (optionChain : List OptionData) : Option Signals :=
  if marketData.length < 2 ∨ optionChain.length = 0 then none
  else
    let currentSpot := ((marketData.getLast?).map (fun d => d.spot)).getD 0
    let spotOpen := ((marketData.head?).map (fun d => d.spot)).getD 0
    let spots := marketData.map (fun d => d.spot)
    let orh := spotsMax spots
    let orl := spotsMin spots
    let orWidthPct := (orh - orl) / spotOpen * 100
    let theAtmRow := atmRow optionChain currentSpot
    let emPct :=
      match theAtmRow with
      | some row => (row.call.ltp + row.put.ltp) / currentSpot * 100
      | none => 0
    let frontIV := jsOr (theAtmRow.map (fun r => r.call.iv)) 0
    let backIV := frontIV * 0.85
    let fbr := fdiv frontIV backIV
    let call25 := findStrikeByDelta optionChain 0.25 OptType.CALL
    let put25 := findStrikeByDelta optionChain 0.25 OptType.PUT
    let rr25 := jsOr (call25.map (fun p => p.1.iv)) 0 -
      jsOr (put25.map (fun p => p.1.iv)) 0
    let returns := logReturns mlog marketData
    let rv :=
      if returns.length = 0 then 0
      else
        msqrt (returns.foldl (fun s r => s + r * r) 0 / (returns.length : ℚ)) *
          msqrt 390 * 100
    let maxOIStrike := findMaxOIStrike optionChain
    let pinDistPct := |currentSpot - maxOIStrike| / currentSpot * 100
    let atmSpread : ℚ :=
      match theAtmRow with
      | some row => (row.call.ask - row.call.bid + row.put.ask - row.put.bid) / 2
      | none => 999
    some
      { OR_width_pct := orWidthPct
        EM_pct := emPct
        FB_ratio := fbr
        RR25 := rr25
        rv_30m_volpts := rv
        pin_strike := maxOIStrike
        pin_dist_pct := pinDistPct
        liquidity_ok := decide (atmSpread ≤ (2.0 : ℚ))
        ORH := orh
        ORL := orl
        spot_open := spotOpen
        current_spot := currentSpot }

/-- Prior-window average volume of the breakout check:
`slice(0, -5)` summed, divided by `max(length - 5, 1)`. -/
def avgVolume (marketData : List MarketData) : ℚ :=
  (sumVolumes (marketData.take (marketData.length - 5)) : ℚ) /
    ((max (marketData.length - 5) 1 : ℕ) : ℚ)

/-- Recent-window average volume of the breakout check:
`slice(-5)` summed, divided by `5`. -/
def recentVolume (marketData : List MarketData) : ℚ :=
  (sumVolumes (marketData.drop (marketData.length - 5)) : ℚ) / 5

/-- The ≥2× volume-surge condition `recentVolume >= 2 * avgVolume`. -/
def volumeSurge (marketData : List MarketData) : Bool :=
  decide (2 * avgVolume marketData ≤ recentVolume marketData)

/-- `checkBreakout`: upward breakout first, then downward, else none. -/
def checkBreakout (marketData : List MarketData) (signals : Signals) :
    Breakout :=
  if signals.ORH * 1.0015 < signals.current_spot ∧ volumeSurge marketData = true
  then { hasBreakout := true, direction := some Dir.up }
  else if signals.current_spot < signals.ORL * 0.9985 ∧
      volumeSurge marketData = true
  then { hasBreakout := true, direction := some Dir.down }
  else { hasBreakout := false, direction := none }

/-- `computeStrategyScores`: the four archetype rule tables.  The scorer
reads the sample buffer (through `checkBreakout`) in addition to the
signals, exactly as the source closes over the `marketData` state. -/
def computeStrategyScores (marketData : List MarketData) (signals : Signals) :
    StrategyScores :=
  let scoreA : ℤ :=
    (if nGe signals.FB_ratio 1.15 then 1 else 0) +
    (if signals.EM_pct ≤ 1.1 * signals.OR_width_pct then 1 else 0) +
    (if signals.pin_dist_pct ≤ 0.35 ∨
        ltN signals.rv_30m_volpts (signals.FB_ratio.map (fun v => v * 10)) = true
     then 1 else 0) -
    (if 2.0 ≤ |signals.RR25| then 1 else 0)
  let breakout := checkBreakout marketData signals
  let scoreB : ℤ :=
    (if breakout.hasBreakout then 1 else 0) +
    (if breakout.direction = some Dir.up ∧ 0 < signals.RR25 then 1 else 0) +
    (if breakout.direction = some Dir.down ∧ signals.RR25 < 0 then 1 else 0) +
    (if nLe signals.FB_ratio 1.10 then 1 else 0) +
    (if 1.3 * signals.OR_width_pct ≤ signals.EM_pct then 1 else 0)
  let scoreC : ℤ :=
    (if nGe signals.FB_ratio 1.20 then 2 else 0) +
    (if signals.pin_dist_pct ≤ 0.30 ∨ signals.rv_30m_volpts < 15 then 1 else 0) -
    (if 0.9 ≤ signals.OR_width_pct then 1 else 0)
  let ivRvDiff := signals.FB_ratio.map (fun v => v * 15 - signals.rv_30m_volpts)
  let scoreD : ℤ :=
    (if nGe ivRvDiff 3 then 2 else 0) +
    (if signals.EM_pct ≤ 1.1 * signals.OR_width_pct then 1 else 0) -
    (if 2.0 ≤ |signals.RR25| then 1 else 0)
  { A := scoreA, B := scoreB, C := scoreC, D := scoreD }

/-- `Math.max(scores.A, scores.B, scores.C, scores.D)`. -/
def maxScore (s : StrategyScores) : ℤ := max s.A (max s.B (max s.C s.D))

/-- The archetype picked by the if/else-if chain of `selectBestStrategy`;
`none` mirrors the chain's unreachable fall-through (the maximum is
always one of the four scores). -/
def pickArche (s : StrategyScores) : Option Arche :=
  if s.A = maxScore s then some Arche.A
  else if s.B = maxScore s then some Arche.B
  else if s.C = maxScore s then some Arche.C
  else if s.D = maxScore s then some Arche.D
  else none

/-- The human-readable strategy name `constructTrade` writes into the
recommendation for each archetype. -/
def archeName : Arche → String
  | Arche.A => "Expiry Iron Fly"
  | Arche.B => "ORB + ITM Long"
  | Arche.C => "ATM Double-Calendar"
  | Arche.D => "Delta-Hedged Short Straddle"

/-- `constructTrade`: builds the recommendation for the picked archetype
from the signals, the option chain (ATM strike, delta search) and the
sample buffer (breakout direction for the ORB leg). -/
def constructTrade (strategy : Arche) (signals : Signals)
    (optionChain : List OptionData) (marketData : List MarketData) :
    TradeRecommendation :=
  let atmStrike := findATMStrike optionChain signals.current_spot
  match strategy with
  | Arche.A =>
    let wingStrike1 : ℚ := (jsRound (atmStrike * 1.01) : ℤ)
    let wingStrike2 : ℚ := (jsRound (atmStrike * 0.99) : ℤ)
    { strategy := "Expiry Iron Fly"
      legs :=
        [ { type := LegType.SELL, opt := OptType.CALL, strike := atmStrike,
            dte := "today", price := none }
        , { type := LegType.SELL, opt := OptType.PUT, strike := atmStrike,
            dte := "today", price := none }
        , { type := LegType.BUY, opt := OptType.CALL, strike := wingStrike1,
            dte := "today", price := none }
        , { type := LegType.BUY, opt := OptType.PUT, strike := wingStrike2,
            dte := "today", price := none } ]
      exits :=
        { tp := "+35-50% of net credit"
          sl := "spot trend >0.8% from entry OR -1.5x credit"
          notes := "Entry: 09:25-09:50 on pullback" }
      risk := { max_loss_R := 0.5 } }
  | Arche.B =>
    let breakout := checkBreakout marketData signals
    let itm70Strike :=
      if breakout.direction = some Dir.up then
        findStrikeByDelta optionChain 0.75 OptType.CALL
      else findStrikeByDelta optionChain 0.75 OptType.PUT
    { strategy := "ORB + ITM Long"
      legs :=
        [ { type := LegType.BUY
            opt := if breakout.direction = some Dir.up then OptType.CALL
              else OptType.PUT
            strike := jsOr (itm70Strike.map (fun p => p.2)) atmStrike
            dte := "today", price := none } ]
      exits :=
        { tp := "+40-60% partial, trail with VWAP"
          sl := "-30% premium OR back inside OR"
          notes := "Max 2 attempts per day" }
      risk := { max_loss_R := 0.3 } }
  | Arche.C =>
    { strategy := "ATM Double-Calendar"
      legs :=
        [ { type := LegType.BUY, opt := OptType.CALL, strike := atmStrike,
            dte := "next_week", price := none }
        , { type := LegType.BUY, opt := OptType.PUT, strike := atmStrike,
            dte := "next_week", price := none }
        , { type := LegType.SELL, opt := OptType.CALL, strike := atmStrike,
            dte := "today", price := none }
        , { type := LegType.SELL, opt := OptType.PUT, strike := atmStrike,
            dte := "today", price := none } ]
      exits :=
        { tp := "FB_ratio<=1.10 OR M2M>=+30%"
          sl := "abs(spot-ATM)/spot >= 0.7%"
          notes := "Skip if spreads>2 ticks" }
      risk := { max_loss_R := 0.5 } }
  | Arche.D =>
    { strategy := "Delta-Hedged Short Straddle"
      legs :=
        [ { type := LegType.SELL, opt := OptType.CALL, strike := atmStrike,
            dte := "today", price := none }
        , { type := LegType.SELL, opt := OptType.PUT, strike := atmStrike,
            dte := "today", price := none } ]
      exits :=
        { tp := "+25-40% of credit"
          sl := "Hard stop -1R including hedge slippage"
          notes := "Delta-hedge on ±0.10 delta drift" }
      risk := { max_loss_R := 1.0 } }

/-- `selectBestStrategy`: `NoTrade` (`none`) when the maximal score is
below 2 or liquidity fails; otherwise the recommendation constructed for
the first archetype (in A, B, C, D order) achieving the maximum. -/
def selectBestStrategy (scores : StrategyScores) (signals : Signals)
    (optionChain : List OptionData) (marketData : List MarketData) :
    Option TradeRecommendation :=
  if maxScore scores < 2 ∨ signals.liquidity_ok = false then none
  else (pickArche scores).map
    (fun a => constructTrade a signals optionChain marketData)

/-- One orchestration tick: compute signals, and when they exist score
the archetypes and run selection; `none` when signal computation reports
insufficient data (scoring is skipped for the tick). -/
def runTick (mlog msqrt : ℚ → ℚ) (marketData : List MarketData)
    (optionChain : List OptionData) :
    Option (Signals × StrategyScores × Option TradeRecommendation) :=
  (computeSignals mlog msqrt marketData optionChain).map
    (fun s =>
      let sc := computeStrategyScores marketData s
      (s, sc, selectBestStrategy sc s optionChain marketData))

/-- The projection `scores.X` for an archetype `X`. -/
def scoreOf (s : StrategyScores) : Arche → ℤ
  | Arche.A => s.A
  | Arche.B => s.B
  | Arche.C => s.C
  | Arche.D => s.D

/-- Position of an archetype in the fixed evaluation order
Iron Fly (A), ORB (B), Calendar (C), Straddle (D). -/
def archeOrder : Arche → ℕ
  | Arche.A => 0
  | Arche.B => 1
  | Arche.C => 2
  | Arche.D => 3

/-- An all-zero option leg, used as padding in concrete test rows. -/
def zleg : OptionLeg := ⟨0, 0, 0, 0, 0, 0, 0⟩

/-- The zero function, standing in for `Math.log`/`Math.sqrt` in concrete
evaluations (their values never influence the verified properties). -/
def zf : ℚ → ℚ := fun _ => 0

/-- A neutral signals record used to instantiate theorems whose
conclusion only reads a few fields; individual tests override fields. -/
def baseSig : Signals :=
  { OR_width_pct := 0, EM_pct := 0, FB_ratio := none, RR25 := 0
    rv_30m_volpts := 0, pin_strike := 0, pin_dist_pct := 0
    liquidity_ok := true, ORH := 0, ORL := 0, spot_open := 0
    current_spot := 0 }

/-- C1 witness scores: A scores 2, the rest lower. -/
def scW1 : StrategyScores := ⟨2, 1, 0, 0⟩

/-- C1/C2 witness chain: a single strike-25000 row. -/
def chainW1 : List OptionData := [⟨25000, zleg, zleg⟩]

/-- C2 witness scores: A and B tie at the maximal score 2. -/
def scW2 : StrategyScores := ⟨2, 2, 1, 0⟩

/-- C3/C6/C9 witness sample buffer: two samples. -/
def mdW3 : List MarketData := [⟨25000, "a", 100⟩, ⟨25050, "b", 100⟩]

/-- C4 counterexample row: call delta 0.29, inside the ±0.05 band but not
closest to the 0.25 target. -/
def rowC4a : OptionData := ⟨100, { zleg with delta := 0.29 }, zleg⟩

/-- C4 counterexample row: call delta exactly 0.25, the closest row. -/
def rowC4b : OptionData := ⟨200, { zleg with delta := 0.25 }, zleg⟩

/-- C4 counterexample chain: the farther in-band row comes first. -/
def chainC4 : List OptionData := [rowC4a, rowC4b]

/-- C4 witness chain: one row with both deltas 0, outside every band used
by the engine. -/
def chainW4 : List OptionData := [⟨100, zleg, zleg⟩]

/-- C5 counterexample signals: an upward price breakout is armed
(`current_spot > ORH × 1.0015`) and `RR25 > 0`. -/
def sigC5 : Signals := { baseSig with RR25 := 1, ORH := 100, ORL := 90, current_spot := 150 }

/-- C5 counterexample buffer 1: empty, so the volume surge holds
vacuously. -/
def md1C5 : List MarketData := []

/-- C5 counterexample buffer 2: six samples whose recent volume average
(1) is far below twice the prior average (100). -/
def md2C5 : List MarketData :=
  [⟨0, "a", 100⟩, ⟨0, "b", 1⟩, ⟨0, "c", 1⟩, ⟨0, "d", 1⟩, ⟨0, "e", 1⟩, ⟨0, "f", 1⟩]

/-- C5 witness buffers: same volume sequences, different spots and
timestamps. -/
def mdW5a : List MarketData := [⟨1, "a", 7⟩, ⟨2, "b", 9⟩]

/-- Second C5 witness buffer. -/
def mdW5b : List MarketData := [⟨30, "x", 7⟩, ⟨40, "y", 9⟩]

/-- C6 witness chain: strike 25000 carries the larger combined OI. -/
def chainW6 : List OptionData :=
  [⟨24900, { zleg with oi := 3 }, { zleg with oi := 4 }⟩,
   ⟨25000, { zleg with oi := 10 }, { zleg with oi := 10 }⟩]

/-- C7 counterexample signals: `ORH = ORL = -100` (the opening-range
invariant holds) makes the up and down price windows overlap at
`current_spot = -100`. -/
def sigC7 : Signals := { baseSig with ORH := -100, ORL := -100, spot_open := -100, current_spot := -100 }

/-- C7 counterexample buffer: one sample, so the volume surge holds. -/
def mdC7 : List MarketData := [⟨-100, "t", 1⟩]

/-- C7 witness signals: ordinary positive ranges, spot below the
downward threshold. -/
def sigW7 : Signals := { baseSig with ORH := 200, ORL := 100, current_spot := 99 }

/-- C7 witness buffer. -/
def mdW7 : List MarketData := [⟨99, "t", 1⟩]

/-- C8 counterexample chain: ATM strike 25050, for which
`25050 × 1.01 = 25300.5` is not an integer and gets rounded. -/
def chainC8 : List OptionData := [⟨25050, zleg, zleg⟩]

/-- C8 counterexample signals. -/
def sigC8 : Signals := { baseSig with current_spot := 25050 }

/-- C8 counterexample scores: Iron Fly wins with 2. -/
def scC8 : StrategyScores := ⟨2, 0, 0, 0⟩

/-- C8 witness chain: ATM strike 25000 as in the spec's Scenario A. -/
def chainW8 : List OptionData := [⟨25000, zleg, zleg⟩]

/-- C8 witness signals. -/
def sigW8 : Signals := { baseSig with current_spot := 25000 }

/-- C8 witness scores: Iron Fly wins with 3. -/
def scW8 : StrategyScores := ⟨3, 0, 0, 0⟩

/-- C9 witness chain: ATM call IV 18 (positive). -/
def chainW9 : List OptionData := [⟨25000, { zleg with iv := 18 }, zleg⟩]

/-- C9 witness chain with ATM call IV 0: the front/back ratio becomes
NaN. -/
def chainW9z : List OptionData := [⟨25000, zleg, zleg⟩]

/-- C10 witness buffer: a single sample (5 or fewer). -/
def mdW10 : List MarketData := [⟨25100, "a", 10⟩]

/-- C10 witness signals: spot above the upward breakout threshold. -/
def sigW10 : Signals := { baseSig with ORH := 25000, ORL := 24900, current_spot := 25100 }

/-- The strategy name `constructTrade` writes is the archetype's name. -/
theorem constructTrade_strategy (a : Arche) (signals : Signals)
    (optionChain : List OptionData) (marketData : List MarketData) :
    (constructTrade a signals optionChain marketData).strategy = archeName a := by
  cases a <;> rfl

/-- `Math.max` of the four scores is one of the four scores. -/
theorem maxScore_mem (s : StrategyScores) :
    maxScore s = s.A ∨ maxScore s = s.B ∨ maxScore s = s.C ∨ maxScore s = s.D := by
  unfold maxScore
  rcases max_choice s.A (max s.B (max s.C s.D)) with h | h
  · exact Or.inl h
  · rcases max_choice s.B (max s.C s.D) with h2 | h2
    · exact Or.inr (Or.inl (h.trans h2))
    · rcases max_choice s.C s.D with h3 | h3
      · exact Or.inr (Or.inr (Or.inl (h.trans (h2.trans h3))))
      · exact Or.inr (Or.inr (Or.inr (h.trans (h2.trans h3))))

/-- The archetype pick always succeeds and achieves the maximal score. -/
theorem pickArche_eq_some (s : StrategyScores) :
    ∃ a : Arche, pickArche s = some a ∧ scoreOf s a = maxScore s := by
  unfold pickArche
  by_cases h1 : s.A = maxScore s
  · exact ⟨Arche.A, by rw [if_pos h1], h1⟩
  · rw [if_neg h1]
    by_cases h2 : s.B = maxScore s
    · exact ⟨Arche.B, by rw [if_pos h2], h2⟩
    · rw [if_neg h2]
      by_cases h3 : s.C = maxScore s
      · exact ⟨Arche.C, by rw [if_pos h3], h3⟩
      · rw [if_neg h3]
        have h4 : s.D = maxScore s := by
          rcases maxScore_mem s with h | h | h | h
          · exact absurd h.symm h1
          · exact absurd h.symm h2
          · exact absurd h.symm h3
          · exact h.symm
        exact ⟨Arche.D, by rw [if_pos h4], h4⟩

/-- The picked archetype achieves the maximum and is the earliest (in
A, B, C, D evaluation order) archetype to do so. -/
theorem pickArche_earliest (s : StrategyScores) (w : Arche)
    (hw : pickArche s = some w) :
    scoreOf s w = maxScore s ∧
      ∀ c : Arche, scoreOf s c = maxScore s → archeOrder w ≤ archeOrder c := by
  unfold pickArche at hw
  by_cases h1 : s.A = maxScore s
  · rw [if_pos h1] at hw
    obtain rfl : Arche.A = w := by injection hw
    exact ⟨h1, fun c _ => Nat.zero_le _⟩
  · rw [if_neg h1] at hw
    by_cases h2 : s.B = maxScore s
    · rw [if_pos h2] at hw
      obtain rfl : Arche.B = w := by injection hw
      refine ⟨h2, fun c hc => ?_⟩
      cases c
      · exact absurd hc h1
      · exact le_refl _
      · exact by decide
      · exact by decide
    · rw [if_neg h2] at hw
      by_cases h3 : s.C = maxScore s
      · rw [if_pos h3] at hw
        obtain rfl : Arche.C = w := by injection hw
        refine ⟨h3, fun c hc => ?_⟩
        cases c
        · exact absurd hc h1
        · exact absurd hc h2
        · exact le_refl _
        · exact by decide
      · rw [if_neg h3] at hw
        by_cases h4 : s.D = maxScore s
        · rw [if_pos h4] at hw
          obtain rfl : Arche.D = w := by injection hw
          refine ⟨h4, fun c hc => ?_⟩
          cases c
          · exact absurd hc h1
          · exact absurd hc h2
          · exact absurd hc h3
          · exact le_refl _
        · rw [if_neg h4] at hw
          exact Option.noConfusion hw

/-- Claim C1: `select` returns NoTrade (`none`) exactly when the maximum
of the four archetype scores is below 2 or the liquidity flag is false;
otherwise it returns the trade recommendation constructed for an
archetype achieving that maximum score. -/
theorem claim_C1_select_noTrade (scores : StrategyScores) (signals : Signals)
    (optionChain : List OptionData) (marketData : List MarketData) :
    (selectBestStrategy scores signals optionChain marketData = none ↔
      maxScore scores < 2 ∨ signals.liquidity_ok = false) ∧
    ∀ rec, selectBestStrategy scores signals optionChain marketData = some rec →
      ∃ a : Arche, scoreOf scores a = maxScore scores ∧
        rec = constructTrade a signals optionChain marketData ∧
        rec.strategy = archeName a := by
  obtain ⟨a0, ha0, hsc0⟩ := pickArche_eq_some scores
  constructor
  · by_cases h : maxScore scores < 2 ∨ signals.liquidity_ok = false
    · rw [selectBestStrategy, if_pos h]
      exact iff_of_true rfl h
    · rw [selectBestStrategy, if_neg h, ha0, Option.map_some']
      exact iff_of_false (by simp) h
  · intro rec hrec
    rw [selectBestStrategy] at hrec
    split at hrec
    · exact Option.noConfusion hrec
    · rw [ha0, Option.map_some'] at hrec
      obtain rfl : constructTrade a0 signals optionChain marketData = rec := by
        injection hrec
      exact ⟨a0, hsc0, rfl, constructTrade_strategy a0 signals optionChain marketData⟩

/-- Witness for C1: at scores (2, 1, 0, 0) with liquidity true, `select`
is not NoTrade and the recommendation belongs to a maximal archetype. -/
theorem claim_C1_witness :
    (selectBestStrategy scW1 baseSig chainW1 [] = none ↔
      maxScore scW1 < 2 ∨ baseSig.liquidity_ok = false) ∧
    ∃ rec, selectBestStrategy scW1 baseSig chainW1 [] = some rec ∧
      ∃ a : Arche, scoreOf scW1 a = maxScore scW1 ∧ rec.strategy = archeName a := by
  have h := claim_C1_select_noTrade scW1 baseSig chainW1 []
  refine ⟨h.1, ?_⟩
  have hne : selectBestStrategy scW1 baseSig chainW1 [] ≠ none := by
    intro hc
    rw [h.1] at hc
    exact absurd hc (by decide)
  obtain ⟨rec, hrec⟩ := Option.ne_none_iff_exists'.mp hne
  obtain ⟨a, ha, _, hname⟩ := h.2 rec hrec
  exact ⟨rec, hrec, a, ha, hname⟩

/-- Claim C2: with two or more archetypes sharing the maximal score (at
least 2) and liquidity true, `select` returns the recommendation of the
archetype earliest in the fixed evaluation order A, B, C, D. -/
theorem claim_C2_tie_break (scores : StrategyScores) (signals : Signals)
    (optionChain : List OptionData) (marketData : List MarketData)
    (hliq : signals.liquidity_ok = true) (hmax : 2 ≤ maxScore scores)
    (a b : Arche) (_hab : a ≠ b)
    (ha : scoreOf scores a = maxScore scores)
    (hb : scoreOf scores b = maxScore scores) :
    ∃ w : Arche, pickArche scores = some w ∧
      scoreOf scores w = maxScore scores ∧
      (∀ c : Arche, scoreOf scores c = maxScore scores →
        archeOrder w ≤ archeOrder c) ∧
      selectBestStrategy scores signals optionChain marketData =
        some (constructTrade w signals optionChain marketData) := by
  obtain ⟨w, hw, hsc⟩ := pickArche_eq_some scores
  have hord := (pickArche_earliest scores w hw).2
  have hcond : ¬(maxScore scores < 2 ∨ signals.liquidity_ok = false) := by
    rintro (h | h)
    · omega
    · rw [hliq] at h; exact Bool.noConfusion h
  refine ⟨w, hw, hsc, hord, ?_⟩
  rw [selectBestStrategy, if_neg hcond, hw, Option.map_some']

/-- Witness for C2: scores (2, 2, 1, 0) tie A and B at the maximum; the
pick is A, the earlier archetype. -/
theorem claim_C2_witness :
    pickArche scW2 = some Arche.A ∧
    selectBestStrategy scW2 baseSig chainW1 [] =
      some (constructTrade Arche.A baseSig chainW1 []) := by
  obtain ⟨w, hw, _, hord, hsel⟩ :=
    claim_C2_tie_break scW2 baseSig chainW1 [] rfl (by decide)
      Arche.A Arche.B (by decide) (by decide) (by decide)
  have h0 := hord Arche.A (by decide)
  have hwA : w = Arche.A := by
    cases w
    · rfl
    · exact absurd h0 (by decide)
    · exact absurd h0 (by decide)
    · exact absurd h0 (by decide)
  rw [hwA] at hw hsel
  exact ⟨hw, hsel⟩

/-- Claim C3: signal computation returns the insufficient-data outcome
(`none`, skipping scoring for the tick) exactly when the buffer has
fewer than 2 samples or the chain snapshot is empty, and otherwise
produces a (fully-populated) `Signals` value. -/
theorem claim_C3_insufficient_data (mlog msqrt : ℚ → ℚ)
    (marketData : List MarketData) (optionChain : List OptionData) :
    (computeSignals mlog msqrt marketData optionChain = none ↔
      marketData.length < 2 ∨ optionChain = []) ∧
    (runTick mlog msqrt marketData optionChain = none ↔
      marketData.length < 2 ∨ optionChain = []) ∧
    (2 ≤ marketData.length → optionChain ≠ [] →
      ∃ s : Signals, computeSignals mlog msqrt marketData optionChain = some s) := by
  have key : computeSignals mlog msqrt marketData optionChain = none ↔
      marketData.length < 2 ∨ optionChain = [] := by
    by_cases h : marketData.length < 2 ∨ optionChain.length = 0
    · rw [computeSignals, if_pos h]
      exact iff_of_true rfl (by simpa [List.length_eq_zero] using h)
    · rw [computeSignals, if_neg h]
      exact iff_of_false (by simp) (by simpa [List.length_eq_zero] using h)
  refine ⟨key, ?_, ?_⟩
  · rw [runTick, Option.map_eq_none', key]
  · intro h1 h2
    have hne : computeSignals mlog msqrt marketData optionChain ≠ none := by
      intro hc
      rcases key.mp hc with h | h
      · omega
      · exact h2 h
    exact Option.ne_none_iff_exists'.mp hne

/-- Witness for C3: a 2-sample buffer and a 1-row chain produce a
`Signals` value. -/
theorem claim_C3_witness :
    ∃ s : Signals, computeSignals zf zf mdW3 chainW1 = some s :=
  (claim_C3_insufficient_data zf zf mdW3 chainW1).2.2
    (by norm_num [mdW3]) (by simp [chainW1])

/-- Claim C10: with 5 or fewer samples the prior-window average volume is
0, the ≥2× surge condition holds vacuously, and a breakout is reported
exactly when a price threshold alone holds (upward taking priority). -/
theorem claim_C10_short_buffer (marketData : List MarketData) (signals : Signals)
    (h : marketData.length ≤ 5) :
    avgVolume marketData = 0 ∧ volumeSurge marketData = true ∧
    (signals.ORH * 1.0015 < signals.current_spot →
      checkBreakout marketData signals = ⟨true, some Dir.up⟩) ∧
    (signals.current_spot < signals.ORL * 0.9985 →
      (checkBreakout marketData signals).hasBreakout = true) ∧
    (¬ signals.ORH * 1.0015 < signals.current_spot →
      ¬ signals.current_spot < signals.ORL * 0.9985 →
      checkBreakout marketData signals = ⟨false, none⟩) := by
  have hz : marketData.length - 5 = 0 := by omega
  have havg : avgVolume marketData = 0 := by
    rw [avgVolume, hz]
    simp [sumVolumes]
  have hsurge : volumeSurge marketData = true := by
    rw [volumeSurge, decide_eq_true_eq, havg, mul_zero, recentVolume]
    positivity
  refine ⟨havg, hsurge, ?_, ?_, ?_⟩
  · intro hup
    rw [checkBreakout, if_pos ⟨hup, hsurge⟩]
  · intro hdn
    rw [checkBreakout]
    by_cases hup : signals.ORH * 1.0015 < signals.current_spot
    · rw [if_pos ⟨hup, hsurge⟩]
    · rw [if_neg (fun hc => hup hc.1), if_pos ⟨hdn, hsurge⟩]
  · intro hup hdn
    rw [checkBreakout, if_neg (fun hc => hup hc.1), if_neg (fun hc => hdn hc.1)]

/-- Witness for C10: one sample, spot above the upward threshold. -/
theorem claim_C10_witness :
    avgVolume mdW10 = 0 ∧ volumeSurge mdW10 = true ∧
    checkBreakout mdW10 sigW10 = ⟨true, some Dir.up⟩ := by
  have h := claim_C10_short_buffer mdW10 sigW10 (by norm_num [mdW10])
  exact ⟨h.1, h.2.1, h.2.2.1 (by norm_num [sigW10, baseSig])⟩

/-- Claim C7 (amended): breakout is up iff the surge holds and spot is
above `ORH × 1.0015`; it is down iff the surge holds, spot is below
`ORL × 0.9985` and the up price condition fails (the up check has
priority); it is none otherwise.  For signals with `0 ≤ ORL ≤ ORH` the
two price windows are disjoint and the down report is equivalent to the
claim's original condition. -/
theorem claim_C7_breakout (marketData : List MarketData) (signals : Signals) :
    (checkBreakout marketData signals = ⟨true, some Dir.up⟩ ↔
      volumeSurge marketData = true ∧
        signals.ORH * 1.0015 < signals.current_spot) ∧
    (checkBreakout marketData signals = ⟨true, some Dir.down⟩ ↔
      volumeSurge marketData = true ∧
        signals.current_spot < signals.ORL * 0.9985 ∧
        ¬ signals.ORH * 1.0015 < signals.current_spot) ∧
    (checkBreakout marketData signals = ⟨false, none⟩ ↔
      ¬ (volumeSurge marketData = true ∧
          signals.ORH * 1.0015 < signals.current_spot) ∧
      ¬ (volumeSurge marketData = true ∧
          signals.current_spot < signals.ORL * 0.9985)) ∧
    (0 ≤ signals.ORL → signals.ORL ≤ signals.ORH →
      (checkBreakout marketData signals = ⟨true, some Dir.down⟩ ↔
        volumeSurge marketData = true ∧
          signals.current_spot < signals.ORL * 0.9985)) := by
  rw [checkBreakout]
  by_cases hup : signals.ORH * 1.0015 < signals.current_spot ∧
      volumeSurge marketData = true
  · rw [if_pos hup]
    refine ⟨iff_of_true rfl ⟨hup.2, hup.1⟩, iff_of_false (by simp) ?_,
      iff_of_false (by simp) ?_, ?_⟩
    · rintro ⟨_, _, hno⟩
      exact hno hup.1
    · rintro ⟨h1, _⟩
      exact h1 ⟨hup.2, hup.1⟩
    · intro h0 hOL
      refine iff_of_false (by simp) ?_
      rintro ⟨_, hdn⟩
      have hle : signals.ORL * 0.9985 ≤ signals.ORH * 1.0015 := by linarith
      linarith [hup.1]
  · rw [if_neg hup]
    by_cases hdn : signals.current_spot < signals.ORL * 0.9985 ∧
        volumeSurge marketData = true
    · rw [if_pos hdn]
      have hnup : ¬ signals.ORH * 1.0015 < signals.current_spot :=
        fun hp => hup ⟨hp, hdn.2⟩
      refine ⟨iff_of_false (by simp) ?_, iff_of_true rfl ⟨hdn.2, hdn.1, hnup⟩,
        iff_of_false (by simp) ?_, ?_⟩
      · rintro ⟨_, hp⟩
        exact hnup hp
      · rintro ⟨_, h2⟩
        exact h2 ⟨hdn.2, hdn.1⟩
      · intro h0 hOL
        exact iff_of_true rfl ⟨hdn.2, hdn.1⟩
    · rw [if_neg hdn]
      refine ⟨iff_of_false (by simp) ?_, iff_of_false (by simp) ?_,
        iff_of_true rfl ⟨?_, ?_⟩, ?_⟩
      · rintro ⟨hs, hp⟩
        exact hup ⟨hp, hs⟩
      · rintro ⟨hs, hp, _⟩
        exact hdn ⟨hp, hs⟩
      · rintro ⟨hs, hp⟩
        exact hup ⟨hp, hs⟩
      · rintro ⟨hs, hp⟩
        exact hdn ⟨hp, hs⟩
      · intro h0 hOL
        refine iff_of_false (by simp) ?_
        rintro ⟨hs, hp⟩
        exact hdn ⟨hp, hs⟩

/-- Counterexample to C7 as stated: signals with `ORH = ORL = -100`
(satisfying the opening-range invariant) and spot `-100` meet both the
up and the down price conditions with a surge, and the code reports an
upward breakout, falsifying the claim's "down if and only if" clause. -/
theorem claim_C7_counterexample :
    sigC7.ORL ≤ sigC7.ORH ∧ volumeSurge mdC7 = true ∧
    sigC7.current_spot < sigC7.ORL * 0.9985 ∧
    checkBreakout mdC7 sigC7 = ⟨true, some Dir.up⟩ ∧
    checkBreakout mdC7 sigC7 ≠ ⟨true, some Dir.down⟩ := by
  refine ⟨le_refl _,
    by norm_num [volumeSurge, avgVolume, recentVolume, sumVolumes, mdC7],
    by norm_num [sigC7, baseSig], ?_, ?_⟩
  · rw [checkBreakout, if_pos]
    constructor
    · norm_num [sigC7, baseSig]
    · norm_num [volumeSurge, avgVolume, recentVolume, sumVolumes, mdC7]
  · rw [checkBreakout, if_pos]
    · simp
    constructor
    · norm_num [sigC7, baseSig]
    · norm_num [volumeSurge, avgVolume, recentVolume, sumVolumes, mdC7]

/-- Witness for C7: with ordinary ranges `0 ≤ ORL ≤ ORH`, a surge and
spot below the downward threshold, the amended characterization yields
the downward breakout. -/
theorem claim_C7_witness :
    checkBreakout mdW7 sigW7 = ⟨true, some Dir.down⟩ :=
  ((claim_C7_breakout mdW7 sigW7).2.2.2
      (by norm_num [sigW7, baseSig]) (by norm_num [sigW7, baseSig])).mpr
    ⟨by norm_num [volumeSurge, avgVolume, recentVolume, sumVolumes, mdW7],
     by norm_num [sigW7, baseSig]⟩

/-- Summed volumes are a function of the volume sequence. -/
theorem sumVolumes_eq_foldl (l : List MarketData) :
    sumVolumes l = (l.map (fun d => d.volume)).foldl (fun s v => s + v) 0 := by
  rw [sumVolumes, List.foldl_map]

/-- The breakout check reads the sample buffer only through its volume
sequence. -/
theorem checkBreakout_congr (md1 md2 : List MarketData) (signals : Signals)
    (h : md1.map (fun d => d.volume) = md2.map (fun d => d.volume)) :
    checkBreakout md1 signals = checkBreakout md2 signals := by
  have hlen : md1.length = md2.length := by
    simpa using congrArg List.length h
  have hsum : ∀ k, sumVolumes (md1.take k) = sumVolumes (md2.take k) := by
    intro k
    rw [sumVolumes_eq_foldl, sumVolumes_eq_foldl, List.map_take,
      List.map_take, h]
  have hsumd : sumVolumes (md1.drop (md2.length - 5)) =
      sumVolumes (md2.drop (md2.length - 5)) := by
    rw [sumVolumes_eq_foldl, sumVolumes_eq_foldl, List.map_drop,
      List.map_drop, h]
  have havg : avgVolume md1 = avgVolume md2 := by
    rw [avgVolume, avgVolume, hlen, hsum]
  have hrec : recentVolume md1 = recentVolume md2 := by
    rw [recentVolume, recentVolume, hlen, hsumd]
  have hsurge : volumeSurge md1 = volumeSurge md2 := by
    rw [volumeSurge, volumeSurge, havg, hrec]
  rw [checkBreakout, checkBreakout, hsurge]

/-- Claim C5 (amended): the scorer is a pure function of the signals and
the sample buffer's volume sequence — two buffers with equal volume
sequences yield identical score sets for any fixed signals.  It is not a
function of the signals alone: the breakout volume-surge condition reads
the buffer's volumes. -/
theorem claim_C5_score_volumes (md1 md2 : List MarketData) (signals : Signals)
    (h : md1.map (fun d => d.volume) = md2.map (fun d => d.volume)) :
    computeStrategyScores md1 signals = computeStrategyScores md2 signals := by
  rw [computeStrategyScores, computeStrategyScores,
    checkBreakout_congr md1 md2 signals h]

/-- Counterexample to C5 as stated: for one fixed signals record, an
empty buffer (vacuous volume surge, upward breakout armed) and a 6-sample
buffer without a surge produce different score sets — the ORB score is 3
in the first run and 1 in the second. -/
theorem claim_C5_counterexample :
    computeStrategyScores md1C5 sigC5 = ⟨2, 3, 1, 1⟩ ∧
    computeStrategyScores md2C5 sigC5 = ⟨2, 1, 1, 1⟩ ∧
    computeStrategyScores md1C5 sigC5 ≠ computeStrategyScores md2C5 sigC5 := by
  have hb1 : checkBreakout md1C5 sigC5 = ⟨true, some Dir.up⟩ := by
    norm_num [checkBreakout, volumeSurge, avgVolume, recentVolume, sumVolumes,
      md1C5, sigC5, baseSig]
  have hb2 : checkBreakout md2C5 sigC5 = ⟨false, none⟩ := by
    norm_num [checkBreakout, volumeSurge, avgVolume, recentVolume, sumVolumes,
      md2C5, sigC5, baseSig]
  have h1 : computeStrategyScores md1C5 sigC5 = ⟨2, 3, 1, 1⟩ := by
    rw [computeStrategyScores, hb1]
    norm_num [nGe, nLe, ltN, sigC5, baseSig]
  have h2 : computeStrategyScores md2C5 sigC5 = ⟨2, 1, 1, 1⟩ := by
    rw [computeStrategyScores, hb2]
    norm_num [nGe, nLe, ltN, sigC5, baseSig]
    all_goals simp
  refine ⟨h1, h2, ?_⟩
  rw [h1, h2]
  simp

/-- Witness for C5: two buffers with equal volume sequences but different
spots and timestamps get identical score sets. -/
theorem claim_C5_witness :
    mdW5a ≠ mdW5b ∧
    computeStrategyScores mdW5a baseSig = computeStrategyScores mdW5b baseSig :=
  ⟨by simp [mdW5a, mdW5b], claim_C5_score_volumes mdW5a mdW5b baseSig rfl⟩

/-- Field-level description of a successful signal computation: the
guard bounds and the definitions of the fields the verified claims
inspect. -/
theorem computeSignals_spec (mlog msqrt : ℚ → ℚ) (marketData : List MarketData)
    (optionChain : List OptionData) (s : Signals)
    (h : computeSignals mlog msqrt marketData optionChain = some s) :
    2 ≤ marketData.length ∧ optionChain ≠ [] ∧
    s.current_spot = ((marketData.getLast?).map (fun d => d.spot)).getD 0 ∧
    s.ORH = spotsMax (marketData.map (fun d => d.spot)) ∧
    s.ORL = spotsMin (marketData.map (fun d => d.spot)) ∧
    s.pin_strike = findMaxOIStrike optionChain ∧
    s.FB_ratio = fdiv (frontIVof optionChain s.current_spot)
      (frontIVof optionChain s.current_spot * 0.85) ∧
    s.RR25 =
      jsOr ((findStrikeByDelta optionChain 0.25 OptType.CALL).map
        (fun p => p.1.iv)) 0 -
      jsOr ((findStrikeByDelta optionChain 0.25 OptType.PUT).map
        (fun p => p.1.iv)) 0 := by
  by_cases hcond : marketData.length < 2 ∨ optionChain.length = 0
  · rw [computeSignals, if_pos hcond] at h
    exact Option.noConfusion h
  · rw [computeSignals, if_neg hcond] at h
    push_neg at hcond
    obtain rfl : _ = s := Option.some.inj h
    refine ⟨by omega, ?_, rfl, rfl, rfl, rfl, rfl, rfl⟩
    intro he
    exact absurd (by rw [he]; rfl) (by omega : ¬ optionChain.length = 0)

/-- `Array.prototype.find` semantics: a returned element satisfies the
predicate and every element before it fails it. -/
theorem find?_first {α : Type} (p : α → Bool) :
    ∀ (l : List α) (x : α), l.find? p = some x →
      ∃ pre suf, l = pre ++ x :: suf ∧ p x = true ∧ ∀ y ∈ pre, p y = false := by
  intro l
  induction l with
  | nil => exact fun x hx => Option.noConfusion hx
  | cons a as ih =>
    intro x hx
    by_cases hpa : p a = true
    · rw [List.find?_cons_of_pos _ hpa] at hx
      obtain rfl : a = x := by injection hx
      exact ⟨[], as, rfl, hpa, by simp⟩
    · rw [List.find?_cons_of_neg _ (by simpa using hpa)] at hx
      obtain ⟨pre, suf, heq, hpx, hpre⟩ := ih x hx
      refine ⟨a :: pre, suf, by rw [heq, List.cons_append], hpx, ?_⟩
      intro y hy
      rcases List.mem_cons.mp hy with rfl | hy2
      · simpa using hpa
      · exact hpre y hy2

/-- Claim C4 (amended): the delta-proximity search returns the first row
(in snapshot order) whose call delta (resp. absolute put delta) lies
strictly within 0.05 of the target — not necessarily the closest such
row — and returns nothing exactly when no row is in the band; in the
no-row case the ORB leg falls back to the ATM strike and the
risk-reversal legs' IVs default to 0 (so `RR25 = 0` when both legs are
missing). -/
theorem claim_C4_first_in_band (optionChain : List OptionData)
    (targetDelta : ℚ) (ty : OptType) :
    (∀ leg k, findStrikeByDelta optionChain targetDelta ty = some (leg, k) →
      ∃ pre row suf, optionChain = pre ++ row :: suf ∧
        inBandDelta targetDelta ty row = true ∧
        (∀ r ∈ pre, inBandDelta targetDelta ty r = false) ∧
        leg = legOf ty row ∧ k = row.strike) ∧
    (findStrikeByDelta optionChain targetDelta ty = none ↔
      ∀ r ∈ optionChain, inBandDelta targetDelta ty r = false) ∧
    (∀ signals marketData,
      findStrikeByDelta optionChain 0.75 OptType.CALL = none →
      findStrikeByDelta optionChain 0.75 OptType.PUT = none →
      (constructTrade Arche.B signals optionChain marketData).legs.map
          (fun l => l.strike) =
        [findATMStrike optionChain signals.current_spot]) ∧
    (∀ mlog msqrt marketData s,
      computeSignals mlog msqrt marketData optionChain = some s →
      findStrikeByDelta optionChain 0.25 OptType.CALL = none →
      findStrikeByDelta optionChain 0.25 OptType.PUT = none →
      s.RR25 = 0) := by
  refine ⟨?_, ?_, ?_, ?_⟩
  · intro leg k h
    rw [findStrikeByDelta] at h
    obtain ⟨row, hrow, hmk⟩ := Option.map_eq_some'.mp h
    obtain ⟨pre, suf, heq, hband, hpre⟩ :=
      find?_first (inBandDelta targetDelta ty) optionChain row hrow
    obtain ⟨hleg, hk⟩ := Prod.mk.injEq .. ▸ hmk
    exact ⟨pre, row, suf, heq, hband, hpre, hleg.symm, hk.symm⟩
  · rw [findStrikeByDelta, Option.map_eq_none', List.find?_eq_none]
    simp
  · intro signals marketData h75c h75p
    simp only [constructTrade, h75c, h75p, ite_self, Option.map_none',
      List.map_cons, List.map_nil]
    rw [jsOr]
  · intro mlog msqrt marketData s h hc hp
    have hrr := (computeSignals_spec mlog msqrt marketData optionChain s
      h).2.2.2.2.2.2.2
    rw [hc, hp] at hrr
    simpa [jsOr] using hrr

/-- Counterexample to C4 as stated: both rows are inside the ±0.05 band
for target 0.25, the second row (call delta 0.25) is strictly closer
than the first (call delta 0.29), yet the search returns the first
row. -/
theorem claim_C4_counterexample :
    inBandDelta 0.25 OptType.CALL rowC4a = true ∧
    inBandDelta 0.25 OptType.CALL rowC4b = true ∧
    |deltaOf OptType.CALL rowC4b - 0.25| < |deltaOf OptType.CALL rowC4a - 0.25| ∧
    findStrikeByDelta chainC4 0.25 OptType.CALL = some (rowC4a.call, 100) := by
  refine ⟨?_, ?_, ?_, ?_⟩ <;>
    norm_num [inBandDelta, deltaOf, findStrikeByDelta, List.find?, chainC4,
      rowC4a, rowC4b, zleg, legOf, abs_of_nonneg, abs_of_nonpos]

/-- Witness for C4: on a chain whose only row has both deltas 0, the
searches at 0.25 and 0.75 find nothing, the ORB leg falls back to the
ATM strike 100, and `RR25` is 0. -/
theorem claim_C4_witness :
    findStrikeByDelta chainW4 0.25 OptType.CALL = none ∧
    (constructTrade Arche.B baseSig chainW4 []).legs.map (fun l => l.strike) =
      [findATMStrike chainW4 baseSig.current_spot] := by
  have h := claim_C4_first_in_band chainW4 0.25 OptType.CALL
  have hc : findStrikeByDelta chainW4 0.25 OptType.CALL = none :=
    h.2.1.mpr (by
      norm_num [chainW4, inBandDelta, deltaOf, zleg, abs_of_nonneg,
        abs_of_nonpos])
  have h75c : findStrikeByDelta chainW4 0.75 OptType.CALL = none :=
    (claim_C4_first_in_band chainW4 0.75 OptType.CALL).2.1.mpr (by
      norm_num [chainW4, inBandDelta, deltaOf, zleg, abs_of_nonneg,
        abs_of_nonpos])
  have h75p : findStrikeByDelta chainW4 0.75 OptType.PUT = none :=
    (claim_C4_first_in_band chainW4 0.75 OptType.PUT).2.1.mpr (by
      norm_num [chainW4, inBandDelta, deltaOf, zleg, abs_of_nonneg,
        abs_of_nonpos])
  exact ⟨hc, h.2.2.1 baseSig [] h75c h75p⟩

/-- Claim C8 (amended): whenever `select` picks the Iron Fly archetype,
the recommendation's legs are exactly sell ATM call, sell ATM put, buy a
wing call at `Math.round(ATM × 1.01)` and buy a wing put at
`Math.round(ATM × 0.99)` (all today expiry — the source rounds the wing
strikes to whole numbers), with risk budget fraction 0.5. -/
theorem claim_C8_iron_fly_legs (scores : StrategyScores) (signals : Signals)
    (optionChain : List OptionData) (marketData : List MarketData)
    (rec : TradeRecommendation)
    (hsel : selectBestStrategy scores signals optionChain marketData = some rec)
    (hname : rec.strategy = "Expiry Iron Fly") :
    2 ≤ maxScore scores ∧ scores.A = maxScore scores ∧
    rec.legs =
      [⟨LegType.SELL, OptType.CALL,
          findATMStrike optionChain signals.current_spot, "today", none⟩,
       ⟨LegType.SELL, OptType.PUT,
          findATMStrike optionChain signals.current_spot, "today", none⟩,
       ⟨LegType.BUY, OptType.CALL,
          (jsRound (findATMStrike optionChain signals.current_spot * 1.01) : ℤ),
          "today", none⟩,
       ⟨LegType.BUY, OptType.PUT,
          (jsRound (findATMStrike optionChain signals.current_spot * 0.99) : ℤ),
          "today", none⟩] ∧
    rec.risk = ⟨0.5⟩ := by
  rw [selectBestStrategy] at hsel
  split at hsel
  · exact Option.noConfusion hsel
  · rename_i hcond
    obtain ⟨a, ha, hmk⟩ := Option.map_eq_some'.mp hsel
    rw [← hmk, constructTrade_strategy] at hname
    have hA : a = Arche.A := by
      cases a
      · rfl
      all_goals exact absurd hname (by decide)
    subst hA
    have hach : scoreOf scores Arche.A = maxScore scores :=
      (pickArche_earliest scores Arche.A ha).1
    push_neg at hcond
    refine ⟨by omega, hach, ?_, ?_⟩
    · rw [← hmk]
      rfl
    · rw [← hmk]
      rfl

/-- Counterexample to C8 as stated: for ATM strike 25050 the code's wing
strikes are the rounded values 25301 and 24800, not the exact products
`25050 × 1.01 = 25300.5` and `25050 × 0.99 = 24799.5`. -/
theorem claim_C8_counterexample :
    (selectBestStrategy scC8 sigC8 chainC8 []).map
        (fun r => r.legs.map (fun l => l.strike)) =
      some [25050, 25050, 25301, 24800] ∧
    (25301 : ℚ) ≠ 25050 * 1.01 ∧ (24800 : ℚ) ≠ 25050 * 0.99 := by
  refine ⟨?_, by norm_num, by norm_num⟩
  have hsel : selectBestStrategy scC8 sigC8 chainC8 [] =
      some (constructTrade Arche.A sigC8 chainC8 []) := by
    norm_num [selectBestStrategy, maxScore, pickArche, scC8, sigC8, baseSig]
  rw [hsel]
  norm_num [constructTrade, findATMStrike, chainC8, sigC8, baseSig, jsOr,
    jsRound]

/-- Witness for C8: for ATM strike 25000 the selected Iron Fly legs are
sell 25000 call, sell 25000 put, buy 25250 call, buy 24750 put. -/
theorem claim_C8_witness :
    ∃ rec, selectBestStrategy scW8 sigW8 chainW8 [] = some rec ∧
      rec.legs =
        [⟨LegType.SELL, OptType.CALL, 25000, "today", none⟩,
         ⟨LegType.SELL, OptType.PUT, 25000, "today", none⟩,
         ⟨LegType.BUY, OptType.CALL, 25250, "today", none⟩,
         ⟨LegType.BUY, OptType.PUT, 24750, "today", none⟩] ∧
      rec.risk = ⟨0.5⟩ := by
  have hsel : selectBestStrategy scW8 sigW8 chainW8 [] =
      some (constructTrade Arche.A sigW8 chainW8 []) := by
    norm_num [selectBestStrategy, maxScore, pickArche, scW8, sigW8, baseSig]
  have h := claim_C8_iron_fly_legs scW8 sigW8 chainW8 []
    (constructTrade Arche.A sigW8 chainW8 []) hsel rfl
  refine ⟨_, hsel, ?_, h.2.2.2⟩
  rw [h.2.2.1]
  norm_num [findATMStrike, chainW8, sigW8, baseSig, jsOr, jsRound]

/-- With the Calendar +2 front/back-ratio rule disabled, the Calendar
score cannot exceed 1. -/
theorem scoreC_le_one (marketData : List MarketData) (s : Signals)
    (hC : nGe s.FB_ratio 1.20 = false) :
    (computeStrategyScores marketData s).C ≤ 1 := by
  simp [computeStrategyScores, hC]
  split_ifs <;> norm_num

/-- Claim C9: when the ATM call IV is positive the front/back IV ratio
is the constant `1 / 0.85` (since back IV is defined as front IV × 0.85),
so the Iron Fly rule `FB ≥ 1.15` always holds while the Calendar rule
`FB ≥ 1.20` and the ORB rule `FB ≤ 1.10` never hold (the Calendar score
thus never receives its +2); when the ATM call IV is 0 the ratio is the
NaN of `0 / 0` and none of the three rules hold. -/
theorem claim_C9_fb_ratio (mlog msqrt : ℚ → ℚ) (marketData : List MarketData)
    (optionChain : List OptionData) (s : Signals)
    (h : computeSignals mlog msqrt marketData optionChain = some s) :
    (0 < frontIVof optionChain s.current_spot →
      s.FB_ratio = some (1 / 0.85) ∧
      nGe s.FB_ratio 1.15 = true ∧
      nGe s.FB_ratio 1.20 = false ∧
      nLe s.FB_ratio 1.10 = false ∧
      ∀ md', (computeStrategyScores md' s).C ≤ 1) ∧
    (frontIVof optionChain s.current_spot = 0 →
      s.FB_ratio = none ∧
      nGe s.FB_ratio 1.15 = false ∧
      nGe s.FB_ratio 1.20 = false ∧
      nLe s.FB_ratio 1.10 = false ∧
      ∀ md', (computeStrategyScores md' s).C ≤ 1) := by
  have hfb := (computeSignals_spec mlog msqrt marketData optionChain s
    h).2.2.2.2.2.2.1
  constructor
  · intro hpos
    have hne : frontIVof optionChain s.current_spot ≠ 0 := ne_of_gt hpos
    have hfb2 : s.FB_ratio = some (1 / 0.85) := by
      rw [hfb, fdiv, if_neg (fun hc => hne hc.1)]
      congr 1
      rw [div_mul_eq_div_div, div_self hne]
    refine ⟨hfb2, ?_, ?_, ?_, ?_⟩
    · rw [hfb2, nGe, decide_eq_true_eq]
      norm_num
    · rw [hfb2, nGe]
      norm_num
    · rw [hfb2, nLe]
      norm_num
    · intro md'
      refine scoreC_le_one md' s ?_
      rw [hfb2, nGe]
      norm_num
  · intro hz
    have hfb2 : s.FB_ratio = none := by
      rw [hfb, hz, fdiv, if_pos ⟨rfl, by norm_num⟩]
    refine ⟨hfb2, ?_, ?_, ?_, ?_⟩
    · rw [hfb2, nGe]
    · rw [hfb2, nGe]
    · rw [hfb2, nLe]
    · intro md'
      refine scoreC_le_one md' s ?_
      rw [hfb2, nGe]

/-- Witness for C9: with ATM call IV 18 the computed ratio is
`some (1/0.85)`; with ATM call IV 0 it is the NaN `none`. -/
theorem claim_C9_witness :
    (∃ s, computeSignals zf zf mdW3 chainW9 = some s ∧
      s.FB_ratio = some (1 / 0.85) ∧ nGe s.FB_ratio 1.20 = false) ∧
    (∃ s, computeSignals zf zf mdW3 chainW9z = some s ∧
      s.FB_ratio = none ∧ nGe s.FB_ratio 1.15 = false) := by
  constructor
  · refine ⟨_, rfl, ?_, ?_⟩
    · exact ((claim_C9_fb_ratio zf zf mdW3 chainW9 _ rfl).1 (by
        norm_num [frontIVof, atmRow, findATMStrike, chainW9, mdW3, jsOr,
          zleg, List.find?])).1
    · exact ((claim_C9_fb_ratio zf zf mdW3 chainW9 _ rfl).1 (by
        norm_num [frontIVof, atmRow, findATMStrike, chainW9, mdW3, jsOr,
          zleg, List.find?])).2.2.1
  · refine ⟨_, rfl, ?_, ?_⟩
    · exact ((claim_C9_fb_ratio zf zf mdW3 chainW9z _ rfl).2 (by
        norm_num [frontIVof, atmRow, findATMStrike, chainW9z, mdW3, jsOr,
          zleg, List.find?])).1
    · exact ((claim_C9_fb_ratio zf zf mdW3 chainW9z _ rfl).2 (by
        norm_num [frontIVof, atmRow, findATMStrike, chainW9z, mdW3, jsOr,
          zleg, List.find?])).2.1

/-- The seed is below a left fold with `max`. -/
theorem le_foldl_max (xs : List ℚ) : ∀ x : ℚ, x ≤ xs.foldl max x := by
  induction xs with
  | nil => exact fun x => le_refl x
  | cons a l ih =>
    intro x
    rw [List.foldl_cons]
    exact le_trans (le_max_left x a) (ih (max x a))

/-- A left fold with `min` is below its seed. -/
theorem foldl_min_le (xs : List ℚ) : ∀ x : ℚ, xs.foldl min x ≤ x := by
  induction xs with
  | nil => exact fun x => le_refl x
  | cons a l ih =>
    intro x
    rw [List.foldl_cons]
    exact le_trans (ih (min x a)) (min_le_left x a)

/-- `Math.min` of a nonempty spot list is below its `Math.max`. -/
theorem spotsMin_le_spotsMax (l : List ℚ) (h : l ≠ []) :
    spotsMin l ≤ spotsMax l := by
  cases l with
  | nil => exact absurd rfl h
  | cons x xs => exact le_trans (foldl_min_le xs x) (le_foldl_max xs x)

/-- Under unique strikes, re-finding a member row by its own strike
returns that row. -/
theorem find?_strike_self :
    ∀ (optionChain : List OptionData),
      (optionChain.map (fun o => o.strike)).Nodup →
      ∀ r ∈ optionChain,
        optionChain.find? (fun o => decide (o.strike = r.strike)) = some r := by
  intro l
  induction l with
  | nil => intro _ r hr; cases hr
  | cons x xs ih =>
    intro hnodup r hr
    rw [List.map_cons, List.nodup_cons] at hnodup
    rcases List.mem_cons.mp hr with rfl | h2
    · rw [List.find?_cons_of_pos _ (by simp)]
    · have hx : ¬ x.strike = r.strike := by
        intro he
        have hmem : r.strike ∈ xs.map (fun o => o.strike) :=
          List.mem_map_of_mem (fun o => o.strike) h2
        rw [← he] at hmem
        exact hnodup.1 hmem
      rw [List.find?_cons_of_neg _ (by simpa using hx)]
      exact ih hnodup.2 r h2

/-- Specification of the `findMaxOIStrike` reduce: starting from a
member row's strike, the fold lands on a member row whose combined open
interest dominates both the start row and every row folded over. -/
theorem foldMaxOI_spec (optionChain : List OptionData)
    (hnodup : (optionChain.map (fun o => o.strike)).Nodup) :
    ∀ (l : List OptionData), (∀ x ∈ l, x ∈ optionChain) →
      ∀ r ∈ optionChain,
        ∃ q ∈ optionChain,
          l.foldl (fun maxStrike opt =>
            if lookupOI optionChain maxStrike < totalOI opt then opt.strike
            else maxStrike) r.strike = q.strike ∧
          totalOI r ≤ totalOI q ∧ ∀ x ∈ l, totalOI x ≤ totalOI q := by
  intro l
  induction l with
  | nil =>
    intro _ r hr
    exact ⟨r, hr, rfl, le_refl _, by simp⟩
  | cons x xs ih =>
    intro hsub r hr
    have hx : x ∈ optionChain := hsub x (List.mem_cons_self x xs)
    have hlook : lookupOI optionChain r.strike = totalOI r := by
      rw [lookupOI, find?_strike_self optionChain hnodup r hr]
    rw [List.foldl_cons]
    by_cases hlt : lookupOI optionChain r.strike < totalOI x
    · rw [if_pos hlt]
      obtain ⟨q, hq, heq, hge, hall⟩ :=
        ih (fun y hy => hsub y (List.mem_cons_of_mem x hy)) x hx
      rw [hlook] at hlt
      refine ⟨q, hq, heq, le_trans (le_of_lt hlt) hge, ?_⟩
      intro y hy
      rcases List.mem_cons.mp hy with rfl | hy2
      · exact hge
      · exact hall y hy2
    · rw [if_neg hlt]
      obtain ⟨q, hq, heq, hge, hall⟩ :=
        ih (fun y hy => hsub y (List.mem_cons_of_mem x hy)) r hr
      rw [hlook] at hlt
      refine ⟨q, hq, heq, hge, ?_⟩
      intro y hy
      rcases List.mem_cons.mp hy with rfl | hy2
      · exact le_trans (le_of_not_lt hlt) hge
      · exact hall y hy2

/-- Claim C6: for a successful signal computation (so the buffer has at
least 2 samples and the snapshot — with unique strikes, per the data
model — is nonempty), the opening-range high is at least the
opening-range low, and the pin strike is the strike of a snapshot row
maximizing combined call + put open interest. -/
theorem claim_C6_invariants (mlog msqrt : ℚ → ℚ)
    (marketData : List MarketData) (optionChain : List OptionData)
    (s : Signals)
    (hnodup : (optionChain.map (fun o => o.strike)).Nodup)
    (h : computeSignals mlog msqrt marketData optionChain = some s) :
    s.ORL ≤ s.ORH ∧
    ∃ r ∈ optionChain, s.pin_strike = r.strike ∧
      ∀ x ∈ optionChain, totalOI x ≤ totalOI r := by
  obtain ⟨hlen, hne, -, hORH, hORL, hpin, -, -⟩ :=
    computeSignals_spec mlog msqrt marketData optionChain s h
  constructor
  · have hmd : marketData ≠ [] := by
      intro hc
      rw [hc] at hlen
      simp at hlen
    rw [hORH, hORL]
    exact spotsMin_le_spotsMax _ (by simpa [List.map_eq_nil_iff] using hmd)
  · cases optionChain with
    | nil => exact absurd rfl hne
    | cons c cs =>
      obtain ⟨q, hq, heq, -, hall⟩ :=
        foldMaxOI_spec (c :: cs) hnodup (c :: cs) (fun x hx => hx) c
          (List.mem_cons_self c cs)
      have hseed : jsOr (((c :: cs).head?).map (fun o => o.strike)) 0 =
          c.strike := by
        by_cases hz : c.strike = 0
        · simp [jsOr, hz]
        · simp [jsOr, hz]
      refine ⟨q, hq, ?_, hall⟩
      rw [hpin, findMaxOIStrike, hseed]
      exact heq

/-- Witness for C6: on a 2-sample buffer and a 2-row chain, the computed
signals satisfy both invariants with pin strike 25000, the max-OI row. -/
theorem claim_C6_witness :
    ∃ s, computeSignals zf zf mdW3 chainW6 = some s ∧
      (s.ORL ≤ s.ORH ∧
        ∃ r ∈ chainW6, s.pin_strike = r.strike ∧
          ∀ x ∈ chainW6, totalOI x ≤ totalOI r) := by
  refine ⟨_, rfl, ?_⟩
  exact claim_C6_invariants zf zf mdW3 chainW6 _
    (by norm_num [chainW6, List.nodup_cons]) rfl
